import Mathlib

/-!
Shallow embedding of the enterprise-rbac-rag repository (src/models.py,
src/auth.py, src/rag.py) and verification of the frozen claims.

External services are modelled as explicit function parameters (oracles):
the ChromaDB similarity query, the langchain text splitter, the Groq LLM
call, and the bcrypt hash/verify pair.  File-system state (the vector
collection, the per-document JSON metadata files, the users file and the
audit log) is an explicit `Store` threaded through every operation, plus a
ghost `trace` of events recording the order in which the effectful /
external steps run (used for the sequencing claim).  Python floats
(similarity distances) are abstracted to `Int`; they never influence
control flow in the embedded code.
-/

namespace RbacRag

/-- models.py `Role(str, Enum)`: EXECUTIVE / MANAGER / EMPLOYEE. -/
inductive Role where
  | EXECUTIVE
  | MANAGER
  | EMPLOYEE
deriving DecidableEq

/-- models.py `Role.value` (the string value of the enum member). -/
def Role.value : Role → String
  | .EXECUTIVE => "Executive"
  | .MANAGER => "Manager"
  | .EMPLOYEE => "Employee"

/-- models.py `User`.  Datetimes are abstracted to `Nat` timestamps. -/
structure User where
  username : String
  hashed_password : String
  role : Role
  department : String
  created_at : Nat := 0
  last_login : Option Nat := none
deriving DecidableEq

/-- models.py `Document`.  The free-form `metadata: Dict[str, Any]` is
modelled as an association list of stringified values (json.dump uses
`default=str`). -/
structure Document where
  id : String
  title : String
  content : String
  metadata : List (String × String)
  access_roles : List Role
  uploaded_by : String
  uploaded_at : Nat := 0
  last_modified : Nat := 0
deriving DecidableEq

/-- models.py `AuditLog` entry (details stringified). -/
structure AuditEntry where
  user_id : String
  user_role : Role
  action : String
  details : List (String × String)
deriving DecidableEq

/-- Chunk metadata stored with each ChromaDB entry (rag.py process_pdf).
In the code `access_roles` is stored as a json string and parsed back with
`json.loads` + `Role(...)` in search_documents; that round trip is the
identity, so it is modelled as `List Role` directly. -/
structure ChunkMeta where
  document_id : String
  title : String
  chunk : Nat
  access_roles : List Role
  department : String
  uploaded_by : String
  uploaded_at : Nat := 0
deriving DecidableEq

/-- One entry of the ChromaDB `documents` collection: chunk id, chunk text
and metadata. -/
structure CollectionEntry where
  id : String
  document : String
  metadata : ChunkMeta
deriving DecidableEq

/-- One raw hit as returned by `document_collection.query` (parallel lists
ids/documents/metadatas/distances, zipped). -/
structure RawHit where
  id : String
  document : String
  metadata : ChunkMeta
  distance : Int
deriving DecidableEq

/-- One element of the list returned by search_documents. -/
structure SearchResult where
  document_id : String
  title : String
  chunk : String
  metadata : ChunkMeta
  relevance_score : Int
deriving DecidableEq

/-- Content of a JSON file on disk: parsed successfully, or present but
not valid JSON. -/
inductive FileContent (α : Type) where
  | parsed (value : α)
  | corrupt
deriving DecidableEq

/-- Ghost events recording the order of the effectful / external steps. -/
inductive Event where
  | split
  | saveMeta
  | collectionAdd
  | vectorQuery
  | filterStep
  | promptBuilt
  | llmCall
  | logWrite
  | usersWrite
deriving DecidableEq

/-- The file-system / vector-store state threaded through the program:
ChromaDB collection, `documents/{id}.json` metadata files, `users.json`,
`audit_log.json`, plus the ghost event trace. -/
structure Store where
  collection : List CollectionEntry := []
  docFiles : List (String × FileContent Document) := []
  usersFile : Option (FileContent (List (String × User))) := none
  auditLog : List AuditEntry := []
  trace : List Event := []
deriving DecidableEq

/-- Append a ghost event to the trace. -/
def emit (e : Event) (st : Store) : Store :=
  { st with trace := st.trace ++ [e] }

/-- Python dict lookup `m.get(k)` on an association list. -/
def dictGet {α : Type} : List (String × α) → String → Option α
  | [], _ => none
  | (k', v) :: tl, k => if k' = k then some v else dictGet tl k

/-- Python dict assignment `m[k] = v` on an association list. -/
def dictSet {α : Type} (m : List (String × α)) (k : String) (v : α) :
    List (String × α) :=
  if m.any (fun p => p.1 = k) then
    m.map (fun p => if p.1 = k then (k, v) else p)
  else
    m ++ [(k, v)]

/-- auth.py log_action: append one entry to audit_log.json. -/
def log_action (username : String) (role : Role) (action : String)
    (details : List (String × String)) (st : Store) : Store :=
  emit .logWrite
    { st with auditLog := st.auditLog ++
        [{ user_id := username, user_role := role, action := action,
           details := details }] }

/-- auth.py has_access_to_document: executives access everything, other
roles only documents whose access list contains their role. -/
def has_access_to_document (user_role : Role)
    (document_access_roles : List Role) : Bool :=
  if user_role = Role.EXECUTIVE then
    true
  else
    document_access_roles.contains user_role

/-- rag.py search_documents: `doc_id.split("_")[0]`, the part of the chunk
id before the first underscore. -/
def originalDocId (chunk_id : String) : String :=
  String.mk (chunk_id.toList.takeWhile (fun c => c ≠ '_'))

/-- Build the result dict appended by search_documents. -/
def mkSearchResult (hit : RawHit) (original_doc_id : String) : SearchResult :=
  { document_id := original_doc_id
    title := hit.metadata.title
    chunk := hit.document
    metadata := hit.metadata
    relevance_score := hit.distance }

/-- The filtering loop of rag.py search_documents: skip chunks of already
seen documents, keep only chunks the user may access (role policy, and
department match for non-executives), stop once top_k results are
collected. -/
def searchLoop (user : User) (top_k : Nat) :
    List RawHit → List String → List SearchResult → List SearchResult
  | [], _, filtered_results => filtered_results
  | hit :: rest, seen_doc_ids, filtered_results =>
    let original_doc_id := originalDocId hit.id
    if original_doc_id ∈ seen_doc_ids then
      searchLoop user top_k rest seen_doc_ids filtered_results
    else if has_access_to_document user.role hit.metadata.access_roles then
      if user.role ≠ Role.EXECUTIVE ∧ hit.metadata.department ≠ user.department then
        searchLoop user top_k rest seen_doc_ids filtered_results
      else
        let filtered' := filtered_results ++ [mkSearchResult hit original_doc_id]
        let seen' := seen_doc_ids ++ [original_doc_id]
        if top_k ≤ filtered'.length then filtered'
        else searchLoop user top_k rest seen' filtered'
    else
      searchLoop user top_k rest seen_doc_ids filtered_results

/-- rag.py search_documents.  `queryFn` is the external
`document_collection.query` oracle (query text and n_results to ranked
hits); the code requests `top_k * 3` hits and then filters. -/
def search_documents (queryFn : String → Nat → List RawHit)
    (query : String) (user : User) (st : Store) (top_k : Nat := 5) :
    List SearchResult × Store :=
  let st1 := log_action user.username user.role "search" [("query", query)] st
  let st2 := emit .vectorQuery st1
  let results := queryFn query (top_k * 3)
  let filtered_results := searchLoop user top_k results [] []
  let st3 := emit .filterStep st2
  (filtered_results, st3)

/-- rag.py: the fixed answer returned when the LLM is not configured. -/
def noLlmMsg : String :=
  "Sorry, the chat functionality is not available. Please check that the GROQ_API_KEY is properly set in your environment variables."

/-- rag.py: the fixed answer returned when search_documents finds no
accessible documents. -/
def noDocsMsg : String :=
  "I couldn't find any documents that you have access to that answer this question."

/-- rag.py generate_answer: the context string joined from the retrieved
chunks. -/
def buildContext (search_results : List SearchResult) : String :=
  String.intercalate "\n\n"
    (search_results.map (fun result =>
      "Document: " ++ result.metadata.title ++ "\nContent: " ++ result.chunk))

/-- rag.py generate_answer: the prompt sent to the LLM. -/
def buildPrompt (query : String) (context : String) : String :=
  "Based on the following documents, please answer the question: " ++ query ++
  "\n\nDocuments:\n" ++ context ++
  "\n\nPlease provide a comprehensive answer based on the information in the documents above. If the documents don't contain enough information to answer the question, please say so.\n\nAnswer:"

/-- rag.py generate_answer: the sources list, one (title, document_id)
pair per retrieved result. -/
def sourcesOf (search_results : List SearchResult) : List (String × String) :=
  search_results.map (fun result => (result.metadata.title, result.document_id))

/-- The answer/sources dict returned by generate_answer. -/
structure GAResult where
  answer : String
  sources : List (String × String)
deriving DecidableEq

/-- rag.py generate_answer.  `llm` is `none` when GROQ_API_KEY is missing;
otherwise it is the external `llm.invoke` oracle, returning the response
content or raising (modelled as `Except` with the exception text). -/
def generate_answer (llm : Option (String → Except String String))
    (queryFn : String → Nat → List RawHit)
    (query : String) (user : User) (st : Store) : GAResult × Store :=
  match llm with
  | none => ({ answer := noLlmMsg, sources := [] }, st)
  | some llmF =>
    let st1 := log_action user.username user.role "query" [("query", query)] st
    let sr := search_documents queryFn query user st1
    let search_results := sr.1
    let st2 := sr.2
    if search_results = [] then
      ({ answer := noDocsMsg, sources := [] }, st2)
    else
      let context := buildContext search_results
      let prompt := buildPrompt query context
      let st3 := emit .promptBuilt st2
      let st4 := emit .llmCall st3
      match llmF prompt with
      | .ok content =>
        ({ answer := content, sources := sourcesOf search_results }, st4)
      | .error e =>
        ({ answer := "Sorry, I encountered an error while generating the answer: " ++ e,
           sources := sourcesOf search_results }, st4)

/-- rag.py save_document_metadata: write documents/{id}.json. -/
def save_document_metadata (document : Document) (st : Store) : Store :=
  emit .saveMeta
    { st with docFiles := dictSet st.docFiles document.id (.parsed document) }

/-- rag.py get_document_metadata: read documents/{id}.json, `none` when
the file is missing (FileNotFoundError) or not valid JSON
(json.JSONDecodeError). -/
def get_document_metadata (doc_id : String) (st : Store) : Option Document :=
  match dictGet st.docFiles doc_id with
  | some (.parsed document) => some document
  | _ => none

/-- rag.py document_collection.add: append the zipped
ids/documents/metadatas as entries of the collection. -/
def collection_add (ids : List String) (documents : List String)
    (metadatas : List ChunkMeta) (st : Store) : Store :=
  let entries := (ids.zip (documents.zip metadatas)).map
    (fun p => ({ id := p.1, document := p.2.1, metadata := p.2.2 } : CollectionEntry))
  emit .collectionAdd { st with collection := st.collection ++ entries }

/-- os.path.basename for the posix paths used by the app: the characters
after the last slash. -/
def basename (p : String) : String :=
  String.mk ((p.toList.reverse.takeWhile (fun c => c ≠ '/')).reverse)

/-- rag.py process_pdf: default access roles when none are supplied. -/
def defaultAccessRoles : Role → List Role
  | .EXECUTIVE => [.EXECUTIVE, .MANAGER, .EMPLOYEE]
  | .MANAGER => [.MANAGER, .EMPLOYEE]
  | .EMPLOYEE => [.EMPLOYEE]

/-- rag.py process_pdf: `if not access_roles:` — `None` and the empty
list both fall back to the role-based defaults. -/
def effectiveAccessRoles (user : User) (access_roles : Option (List Role)) :
    List Role :=
  match access_roles with
  | some (r :: rs) => r :: rs
  | _ => defaultAccessRoles user.role

/-- The chunking configuration handed to langchain's
RecursiveCharacterTextSplitter. -/
structure SplitterConfig where
  chunk_size : Nat
  chunk_overlap : Nat
deriving DecidableEq

/-- rag.py process_pdf: `if not title:` — `None` and the empty string
both fall back to the basename of the file path. -/
def pdfTitle (file_path : String) (title : Option String) : String :=
  match title with
  | some t => if t = "" then basename file_path else t
  | none => basename file_path

/-- rag.py process_pdf: the extracted text, each page's text followed by
a newline. -/
def pdfText (pages : List String) : String :=
  String.join (pages.map (fun page => page ++ "\n"))

/-- rag.py process_pdf: the chunk list produced by the (external)
RecursiveCharacterTextSplitter configured with chunk_size 1000 and
chunk_overlap 200. -/
def pdfChunks (splitFn : SplitterConfig → String → List String)
    (pages : List String) : List String :=
  splitFn { chunk_size := 1000, chunk_overlap := 200 } (pdfText pages)

/-- rag.py process_pdf: the Document metadata record.  `String.mk
(text.toList.take 1000)` is the character slice `text[:1000]`. -/
def pdfDocument (doc_id title text file_path : String) (numPages : Nat)
    (user : User) (access_roles : List Role) (now : Nat) : Document :=
  { id := doc_id
    title := title
    content := String.mk (text.toList.take 1000) ++ "..."
    metadata := [("source", file_path), ("pages", toString numPages),
                 ("department", user.department)]
    access_roles := access_roles
    uploaded_by := user.username
    uploaded_at := now
    last_modified := now }

/-- rag.py process_pdf: the chunk ids `f"{doc_id}_{i}"` for i in
range(len(chunks)). -/
def chunkIds (doc_id : String) (n : Nat) : List String :=
  (List.range n).map (fun i => doc_id ++ "_" ++ toString i)

/-- rag.py process_pdf: one metadata dict per chunk. -/
def chunkMetadatas (doc_id title : String) (access_roles : List Role)
    (user : User) (now : Nat) (n : Nat) : List ChunkMeta :=
  (List.range n).map (fun i =>
    { document_id := doc_id, title := title, chunk := i,
      access_roles := access_roles, department := user.department,
      uploaded_by := user.username, uploaded_at := now })

/-- rag.py process_pdf.  External inputs are explicit: `splitFn` is the
langchain splitter oracle, `pages` the page texts from PdfReader, `doc_id`
the fresh uuid, `now` the timestamp.  A raised ValueError is the
`Except.error` branch; it happens before any write, so the store is
returned unchanged there. -/
def process_pdf (splitFn : SplitterConfig → String → List String)
    (pages : List String) (doc_id : String) (now : Nat)
    (file_path : String) (user : User)
    (title : Option String) (access_roles : Option (List Role))
    (st : Store) : Except String Document × Store :=
  let title := pdfTitle file_path title
  let access_roles := effectiveAccessRoles user access_roles
  if user.role = Role.EMPLOYEE ∧ access_roles.any (fun role => role ≠ Role.EMPLOYEE) then
    (.error "Employees can only assign Employee-level access", st)
  else if user.role = Role.MANAGER ∧ Role.EXECUTIVE ∈ access_roles then
    (.error "Managers cannot assign Executive-level access", st)
  else
    let text := pdfText pages
    let chunks := pdfChunks splitFn pages
    let st1 := emit .split st
    let document := pdfDocument doc_id title text file_path pages.length user access_roles now
    let st2 := save_document_metadata document st1
    let ids := chunkIds doc_id chunks.length
    let metadatas := chunkMetadatas doc_id title access_roles user now chunks.length
    let st3 := collection_add ids chunks metadatas st2
    let st4 := log_action user.username user.role "upload_document"
      [("document_id", doc_id), ("title", title)] st3
    (.ok document, st4)

/-- rag.py delete_document, the mutation part once permission checks
passed: `document_collection.get(where={"document_id": doc_id})` followed
by `document_collection.delete(ids=...)` when any ids were found, then
`os.remove` of the metadata file with FileNotFoundError ignored. -/
def delete_document_mut (doc_id : String) (st : Store) : Store :=
  let results := st.collection.filter
    (fun e => e.metadata.document_id == doc_id)
  let ids := results.map (fun e => e.id)
  let st1 :=
    if ids = [] then st
    else { st with collection := st.collection.filter (fun e => !(ids.contains e.id)) }
  { st1 with docFiles := st1.docFiles.filter (fun p => !(p.1 == doc_id)) }

/-- rag.py delete_document: permission-checked deletion of all chunks of
a document plus its metadata file. -/
def delete_document (doc_id : String) (user : User) (st : Store) :
    Bool × Store :=
  match get_document_metadata doc_id st with
  | none => (false, st)
  | some document =>
    if user.role = Role.EMPLOYEE then (false, st)
    else if user.role = Role.MANAGER ∧ Role.EXECUTIVE ∈ document.access_roles then
      (false, st)
    else
      let st2 := delete_document_mut doc_id st
      let st3 := log_action user.username user.role "delete_document"
        [("document_id", doc_id), ("title", document.title)] st2
      (true, st3)

/-- auth.py get_users: the default users created when users.json does not
exist.  `hash` is the external bcrypt `get_password_hash` oracle. -/
def default_users (hash : String → String) : List (String × User) :=
  [("admin", { username := "admin", hashed_password := hash "admin123",
               role := .EXECUTIVE, department := "Management" }),
   ("manager", { username := "manager", hashed_password := hash "manager123",
                 role := .MANAGER, department := "HR" }),
   ("employee", { username := "employee", hashed_password := hash "employee123",
                  role := .EMPLOYEE, department := "Support" })]

/-- auth.py save_users: overwrite users.json with the given map. -/
def save_users (users : List (String × User)) (st : Store) : Store :=
  emit .usersWrite { st with usersFile := some (.parsed users) }

/-- auth.py get_users: missing file creates and saves the defaults, an
unparseable file yields the empty map. -/
def get_users (hash : String → String) (st : Store) :
    List (String × User) × Store :=
  match st.usersFile with
  | none =>
    let d := default_users hash
    (d, save_users d st)
  | some (.parsed users) => (users, st)
  | some .corrupt => ([], st)

/-- auth.py authenticate_user.  `verify` is the external bcrypt
`verify_password` oracle (plain password, stored hash). -/
def authenticate_user (hash : String → String)
    (verify : String → String → Bool) (now : Nat)
    (username password : String) (st : Store) : Option User × Store :=
  let us := get_users hash st
  let users := us.1
  let st1 := us.2
  match dictGet users username with
  | none => (none, st1)
  | some user =>
    if ¬ verify password user.hashed_password then (none, st1)
    else
      let user' := { user with last_login := some now }
      let users' := dictSet users username user'
      let st2 := save_users users' st1
      let st3 := log_action username user.role "login" [] st2
      (some user', st3)

/-- The access policy of search_documents for one returned result: the
role policy holds, and non-executives additionally only see chunks of
their own department. -/
def resultPolicy (user : User) (r : SearchResult) : Prop :=
  has_access_to_document user.role r.metadata.access_roles = true ∧
  (user.role ≠ Role.EXECUTIVE → r.metadata.department = user.department)

instance (user : User) (r : SearchResult) : Decidable (resultPolicy user r) := by
  unfold resultPolicy
  infer_instance

/-! ## Invariants of the search_documents filtering loop -/

theorem searchLoop_policy (user : User) (top_k : Nat) :
    ∀ (raw : List RawHit) (seen : List String) (filtered : List SearchResult),
      (∀ r ∈ filtered, resultPolicy user r) →
      ∀ r ∈ searchLoop user top_k raw seen filtered, resultPolicy user r := by
  intro raw
  induction raw with
  | nil =>
    intro seen filtered h
    simpa [searchLoop] using h
  | cons hit rest ih =>
    intro seen filtered h
    simp only [searchLoop]
    split
    · exact ih _ _ h
    · split
      · rename_i hacc
        split
        · exact ih _ _ h
        · rename_i hdept
          have hnew : resultPolicy user (mkSearchResult hit (originalDocId hit.id)) := by
            refine ⟨hacc, ?_⟩
            intro hne
            by_contra hd
            exact hdept ⟨hne, hd⟩
          have h' : ∀ r ∈ filtered ++ [mkSearchResult hit (originalDocId hit.id)],
              resultPolicy user r := by
            intro r hr
            rcases List.mem_append.mp hr with h1 | h1
            · exact h r h1
            · rcases List.mem_singleton.mp h1 with rfl
              exact hnew
          split
          · exact h'
          · exact ih _ _ h'
      · exact ih _ _ h

theorem searchLoop_length_le (user : User) (top_k : Nat) :
    ∀ (raw : List RawHit) (seen : List String) (filtered : List SearchResult),
      filtered.length < top_k →
      (searchLoop user top_k raw seen filtered).length ≤ top_k := by
  intro raw
  induction raw with
  | nil =>
    intro seen filtered h
    simpa [searchLoop] using Nat.le_of_lt h
  | cons hit rest ih =>
    intro seen filtered h
    simp only [searchLoop]
    split
    · exact ih _ _ h
    · split
      · split
        · exact ih _ _ h
        · split
          · simpa using h
          · rename_i hlen
            refine ih _ _ ?_
            simpa using Nat.lt_of_not_le hlen
      · exact ih _ _ h

theorem searchLoop_nodup (user : User) (top_k : Nat) :
    ∀ (raw : List RawHit) (seen : List String) (filtered : List SearchResult),
      (filtered.map (fun r => r.document_id)).Nodup →
      (∀ r ∈ filtered, r.document_id ∈ seen) →
      ((searchLoop user top_k raw seen filtered).map (fun r => r.document_id)).Nodup := by
  intro raw
  induction raw with
  | nil =>
    intro seen filtered h1 h2
    simpa [searchLoop] using h1
  | cons hit rest ih =>
    intro seen filtered h1 h2
    simp only [searchLoop]
    split
    · exact ih _ _ h1 h2
    · rename_i hseen
      split
      · split
        · exact ih _ _ h1 h2
        · have hnotin : originalDocId hit.id ∉ filtered.map (fun r => r.document_id) := by
            intro hmem
            rcases List.mem_map.mp hmem with ⟨r, hr, hid⟩
            exact hseen (hid ▸ h2 r hr)
          have h1' : ((filtered ++ [mkSearchResult hit (originalDocId hit.id)]).map
              (fun r => r.document_id)).Nodup := by
            rw [List.map_append]
            refine List.Nodup.append h1 (List.nodup_singleton _) ?_
            simpa [mkSearchResult, List.disjoint_singleton] using hnotin
          have h2' : ∀ r ∈ filtered ++ [mkSearchResult hit (originalDocId hit.id)],
              r.document_id ∈ seen ++ [originalDocId hit.id] := by
            intro r hr
            rcases List.mem_append.mp hr with hmem | hmem
            · exact List.mem_append.mpr (Or.inl (h2 r hmem))
            · rcases List.mem_singleton.mp hmem with rfl
              simp [mkSearchResult]
          split
          · exact h1'
          · exact ih _ _ h1' h2'
      · exact ih _ _ h1 h2

/-! ## Claim theorems: search_documents -/

/-- Claim C1: every result returned by search_documents satisfies the
role/department access policy — has_access_to_document holds (which is
unconditional for executives and otherwise means membership of the user's
role in the chunk's access_roles), and for non-executives the chunk's
department equals the user's department; no chunk failing the policy is
returned. -/
theorem search_documents_access_policy
    (queryFn : String → Nat → List RawHit) (query : String) (user : User)
    (st : Store) (top_k : Nat) :
    (∀ r ∈ (search_documents queryFn query user st top_k).1, resultPolicy user r) ∧
    (∀ roles : List Role, has_access_to_document Role.EXECUTIVE roles = true) ∧
    (∀ (role : Role) (roles : List Role), role ≠ Role.EXECUTIVE →
      (has_access_to_document role roles = true ↔ role ∈ roles)) := by
  refine ⟨?_, ?_, ?_⟩
  · intro r hr
    have hfst : (search_documents queryFn query user st top_k).1 =
        searchLoop user top_k (queryFn query (top_k * 3)) [] [] := rfl
    rw [hfst] at hr
    refine searchLoop_policy user top_k _ [] [] ?_ r hr
    intro r hr
    cases hr
  · intro roles
    simp [has_access_to_document]
  · intro role roles hne
    simp [has_access_to_document, hne]

/-- Claim C8: search_documents returns at most top_k results (given that
the vector index honours the requested n_results = top_k * 3 bound), and
the document_id fields of the returned results are pairwise distinct (at
most one chunk per original document). -/
theorem search_documents_topk_distinct
    (queryFn : String → Nat → List RawHit) (query : String) (user : User)
    (st : Store) (top_k : Nat)
    (h : (queryFn query (top_k * 3)).length ≤ top_k * 3) :
    (search_documents queryFn query user st top_k).1.length ≤ top_k ∧
    ((search_documents queryFn query user st top_k).1.map
      (fun r => r.document_id)).Nodup := by
  have hfst : (search_documents queryFn query user st top_k).1 =
      searchLoop user top_k (queryFn query (top_k * 3)) [] [] := rfl
  constructor
  · rw [hfst]
    rcases Nat.eq_zero_or_pos top_k with h0 | hpos
    · subst h0
      have hnil : queryFn query (0 * 3) = [] :=
        List.eq_nil_of_length_eq_zero (Nat.le_zero.mp (by simpa using h))
      rw [hnil]
      simp [searchLoop]
    · exact searchLoop_length_le user top_k _ [] [] (by simpa using hpos)
  · rw [hfst]
    refine searchLoop_nodup user top_k _ [] [] (by simp) ?_
    intro r hr
    cases hr

/-! ## Claim theorems: generate_answer -/

/-- The filtered result list of search_documents does not depend on the
store (only the audit log and ghost trace are written). -/
theorem search_documents_fst (queryFn : String → Nat → List RawHit)
    (query : String) (user : User) (st : Store) (top_k : Nat := 5) :
    (search_documents queryFn query user st top_k).1 =
      searchLoop user top_k (queryFn query (top_k * 3)) [] [] := rfl

/-- Claim C2: generate_answer grounds the answer only in the chunks
retrieved for that user.  With the LLM configured: when search_documents
returns no results, the fixed no-accessible-documents answer is returned
with an empty sources list and the LLM is never called (no llmCall event
appears in the trace extension); otherwise the answer is exactly the LLM
response to the prompt built from the query and the retrieved chunks, and
the sources list is exactly the (title, document_id) pairs of the
retrieved results in order. -/
theorem generate_answer_grounded
    (f : String → Except String String) (queryFn : String → Nat → List RawHit)
    (query : String) (user : User) (st : Store) :
    ((search_documents queryFn query user st).1 = [] →
      (generate_answer (some f) queryFn query user st).1 =
        { answer := noDocsMsg, sources := [] } ∧
      Event.llmCall ∉
        ((generate_answer (some f) queryFn query user st).2.trace.drop
          st.trace.length)) ∧
    ((search_documents queryFn query user st).1 ≠ [] →
      (generate_answer (some f) queryFn query user st).1 =
        { answer :=
            match f (buildPrompt query
                (buildContext (search_documents queryFn query user st).1)) with
            | .ok content => content
            | .error e =>
              "Sorry, I encountered an error while generating the answer: " ++ e,
          sources := sourcesOf (search_documents queryFn query user st).1 }) := by
  constructor
  · intro hempty
    have hkey : (search_documents queryFn query user
        (log_action user.username user.role "query" [("query", query)] st)).1
          = [] := hempty
    constructor
    · simp only [generate_answer]
      rw [if_pos hkey]
    · simp only [generate_answer]
      rw [if_pos hkey]
      simp [search_documents, log_action, emit, List.append_assoc, List.drop_left]
  · intro hne
    have hkey : (search_documents queryFn query user
        (log_action user.username user.role "query" [("query", query)] st)).1
          ≠ [] := hne
    simp only [generate_answer]
    rw [if_neg hkey]
    have heq : (search_documents queryFn query user
        (log_action user.username user.role "query" [("query", query)] st)).1
          = (search_documents queryFn query user st).1 := rfl
    rw [heq]
    cases hf : f (buildPrompt query
        (buildContext (search_documents queryFn query user st).1)) <;> simp [hf]

/-- Claim C7: generate_answer performs at most one LLM call (at most one
llmCall event in the trace extension), never modifies the vector
collection, the document metadata files or the users file, and when the
LLM call raises, returns an answer embedding the exception text together
with the sources of the retrieved results. -/
theorem generate_answer_one_call_no_mutation
    (llm : Option (String → Except String String))
    (queryFn : String → Nat → List RawHit)
    (query : String) (user : User) (st : Store) :
    ((generate_answer llm queryFn query user st).2.trace.drop
        st.trace.length).count Event.llmCall ≤ 1 ∧
    (generate_answer llm queryFn query user st).2.collection = st.collection ∧
    (generate_answer llm queryFn query user st).2.docFiles = st.docFiles ∧
    (generate_answer llm queryFn query user st).2.usersFile = st.usersFile ∧
    (∀ (f : String → Except String String) (e : String),
      llm = some f →
      f (buildPrompt query
          (buildContext (search_documents queryFn query user st).1)) = .error e →
      (search_documents queryFn query user st).1 ≠ [] →
      (generate_answer llm queryFn query user st).1 =
        { answer :=
            "Sorry, I encountered an error while generating the answer: " ++ e,
          sources := sourcesOf (search_documents queryFn query user st).1 }) := by
  cases llm with
  | none =>
    refine ⟨?_, rfl, rfl, rfl, ?_⟩
    · simp [generate_answer, List.drop_length]
    · intro f e hf
      cases hf
  | some f =>
    by_cases hempty : (search_documents queryFn query user
        (log_action user.username user.role "query" [("query", query)] st)).1 = []
    · refine ⟨?_, ?_, ?_, ?_, ?_⟩
      · simp only [generate_answer]
        rw [if_pos hempty]
        simp [search_documents, log_action, emit, List.append_assoc, List.drop_left]
      · simp only [generate_answer]
        rw [if_pos hempty]
        simp [search_documents, log_action, emit]
      · simp only [generate_answer]
        rw [if_pos hempty]
        simp [search_documents, log_action, emit]
      · simp only [generate_answer]
        rw [if_pos hempty]
        simp [search_documents, log_action, emit]
      · intro g e hg hcall hne
        exact absurd hempty hne
    · have hsplit : ∀ T : Type, ∀ F : GAResult × Store → T,
          F (generate_answer (some f) queryFn query user st) =
          F (match f (buildPrompt query
              (buildContext (search_documents queryFn query user st).1)) with
             | .ok content =>
               ({ answer := content,
                  sources := sourcesOf (search_documents queryFn query user st).1 },
                emit .llmCall (emit .promptBuilt (search_documents queryFn query user
                  (log_action user.username user.role "query" [("query", query)] st)).2))
             | .error e =>
               ({ answer :=
                    "Sorry, I encountered an error while generating the answer: " ++ e,
                  sources := sourcesOf (search_documents queryFn query user st).1 },
                emit .llmCall (emit .promptBuilt (search_documents queryFn query user
                  (log_action user.username user.role "query" [("query", query)] st)).2))) := by
        intro T F
        simp only [generate_answer]
        rw [if_neg hempty]
        rfl
      refine ⟨?_, ?_, ?_, ?_, ?_⟩
      · rw [hsplit Nat (fun p => (p.2.trace.drop st.trace.length).count Event.llmCall)]
        cases hf : f (buildPrompt query
            (buildContext (search_documents queryFn query user st).1)) <;>
          simp [search_documents, log_action, emit, List.append_assoc, List.drop_left]
      · rw [hsplit (List CollectionEntry) (fun p => p.2.collection)]
        cases hf : f (buildPrompt query
            (buildContext (search_documents queryFn query user st).1)) <;>
          simp [search_documents, log_action, emit]
      · rw [hsplit (List (String × FileContent Document)) (fun p => p.2.docFiles)]
        cases hf : f (buildPrompt query
            (buildContext (search_documents queryFn query user st).1)) <;>
          simp [search_documents, log_action, emit]
      · rw [hsplit (Option (FileContent (List (String × User)))) (fun p => p.2.usersFile)]
        cases hf : f (buildPrompt query
            (buildContext (search_documents queryFn query user st).1)) <;>
          simp [search_documents, log_action, emit]
      · intro g e hg hcall hne
        rcases Option.some.inj hg with rfl
        rw [hsplit GAResult (fun p => p.1)]
        rw [hcall]

/-! ## Claim theorems: process_pdf -/

/-- When the role-assignment checks pass, process_pdf takes the success
branch: metadata saved, chunks added, upload logged. -/
theorem process_pdf_success
    (splitFn : SplitterConfig → String → List String) (pages : List String)
    (doc_id : String) (now : Nat) (file_path : String) (user : User)
    (title : Option String) (access_roles : Option (List Role)) (st : Store)
    (h1 : ¬(user.role = Role.EMPLOYEE ∧
      (effectiveAccessRoles user access_roles).any (fun role => role ≠ Role.EMPLOYEE)))
    (h2 : ¬(user.role = Role.MANAGER ∧
      Role.EXECUTIVE ∈ effectiveAccessRoles user access_roles)) :
    process_pdf splitFn pages doc_id now file_path user title access_roles st =
      (.ok (pdfDocument doc_id (pdfTitle file_path title) (pdfText pages)
          file_path pages.length user (effectiveAccessRoles user access_roles) now),
       log_action user.username user.role "upload_document"
         [("document_id", doc_id), ("title", pdfTitle file_path title)]
         (collection_add (chunkIds doc_id (pdfChunks splitFn pages).length)
           (pdfChunks splitFn pages)
           (chunkMetadatas doc_id (pdfTitle file_path title)
             (effectiveAccessRoles user access_roles) user now
             (pdfChunks splitFn pages).length)
           (save_document_metadata
             (pdfDocument doc_id (pdfTitle file_path title) (pdfText pages)
               file_path pages.length user (effectiveAccessRoles user access_roles) now)
             (emit .split st)))) := by
  simp only [process_pdf]
  rw [if_neg h1, if_neg h2]

/-- Componentwise maps of a zip of three equal-length lists. -/
theorem zip3_map_components {α β γ : Type} :
    ∀ (l₁ : List α) (l₂ : List β) (l₃ : List γ),
      l₁.length = l₂.length → l₁.length = l₃.length →
      ((l₁.zip (l₂.zip l₃)).map (fun p => p.1) = l₁ ∧
       (l₁.zip (l₂.zip l₃)).map (fun p => p.2.1) = l₂ ∧
       (l₁.zip (l₂.zip l₃)).map (fun p => p.2.2) = l₃)
  | [], l₂, l₃, h12, h13 => by
    have : l₂ = [] := List.eq_nil_of_length_eq_zero h12.symm
    have : l₃ = [] := List.eq_nil_of_length_eq_zero h13.symm
    subst_vars
    simp
  | a :: t₁, l₂, l₃, h12, h13 => by
    cases l₂ with
    | nil => simp at h12
    | cons b t₂ =>
      cases l₃ with
      | nil => simp at h13
      | cons c t₃ =>
        simp only [List.length_cons, Nat.succ.injEq] at h12 h13
        have ih := zip3_map_components t₁ t₂ t₃ h12 h13
        simp [List.zip_cons_cons, ih.1, ih.2.1, ih.2.2]

/-- Claim C3: process_pdf splits the extracted text with chunk_size 1000
and overlap 200 (the configuration passed to the external splitter), and
stores one vector-collection entry per chunk, with ids doc_id_i for
consecutive i from 0 to len(chunks) - 1, each carrying the document's
access_roles, department and uploader in its metadata. -/
theorem process_pdf_chunking
    (splitFn : SplitterConfig → String → List String) (pages : List String)
    (doc_id : String) (now : Nat) (file_path : String) (user : User)
    (title : Option String) (access_roles : Option (List Role)) (st : Store)
    (h1 : ¬(user.role = Role.EMPLOYEE ∧
      (effectiveAccessRoles user access_roles).any (fun role => role ≠ Role.EMPLOYEE)))
    (h2 : ¬(user.role = Role.MANAGER ∧
      Role.EXECUTIVE ∈ effectiveAccessRoles user access_roles)) :
    pdfChunks splitFn pages =
      splitFn { chunk_size := 1000, chunk_overlap := 200 } (pdfText pages) ∧
    ∃ newEntries : List CollectionEntry,
      (process_pdf splitFn pages doc_id now file_path user title access_roles st).2.collection
        = st.collection ++ newEntries ∧
      newEntries.map (fun e => e.document) = pdfChunks splitFn pages ∧
      newEntries.map (fun e => e.id) =
        (List.range (pdfChunks splitFn pages).length).map
          (fun i => doc_id ++ "_" ++ toString i) ∧
      ∀ e ∈ newEntries,
        e.metadata.access_roles = effectiveAccessRoles user access_roles ∧
        e.metadata.department = user.department ∧
        e.metadata.uploaded_by = user.username ∧
        e.metadata.document_id = doc_id := by
  refine ⟨rfl, ?_⟩
  rw [process_pdf_success splitFn pages doc_id now file_path user title access_roles st h1 h2]
  set n := (pdfChunks splitFn pages).length with hn
  set ids := chunkIds doc_id n with hids
  set metas := chunkMetadatas doc_id (pdfTitle file_path title)
    (effectiveAccessRoles user access_roles) user now n with hmetas
  have hlen1 : ids.length = (pdfChunks splitFn pages).length := by
    simp [hids, chunkIds, hn]
  have hlen2 : ids.length = metas.length := by
    simp [hids, hmetas, chunkIds, chunkMetadatas]
  have hz := zip3_map_components ids (pdfChunks splitFn pages) metas hlen1 hlen2
  refine ⟨(ids.zip ((pdfChunks splitFn pages).zip metas)).map
    (fun p => ({ id := p.1, document := p.2.1, metadata := p.2.2 } : CollectionEntry)), ?_, ?_, ?_, ?_⟩
  · simp [log_action, emit, collection_add, save_document_metadata]
  · rw [List.map_map]
    exact hz.2.1
  · rw [List.map_map]
    rw [show ((fun e : CollectionEntry => e.id) ∘
        (fun p : String × (String × ChunkMeta) =>
          ({ id := p.1, document := p.2.1, metadata := p.2.2 } : CollectionEntry)))
      = (fun p : String × (String × ChunkMeta) => p.1) from rfl]
    rw [hz.1]
    simp [hids, chunkIds, hn]
  · intro e he
    rcases List.mem_map.mp he with ⟨p, hp, rfl⟩
    obtain ⟨id1, ch, m⟩ := p
    have hm : m ∈ metas := (List.of_mem_zip ((List.of_mem_zip hp).2)).2
    rw [hmetas] at hm
    simp only [chunkMetadatas, List.mem_map] at hm
    rcases hm with ⟨i, hi, rfl⟩
    exact ⟨rfl, rfl, rfl, rfl⟩

/-- The default access-role lists always pass the role-assignment
checks for their own uploader. -/
theorem defaults_assignable_role (role : Role) :
    ¬(role = Role.EMPLOYEE ∧
      (defaultAccessRoles role).any (fun r => r ≠ Role.EMPLOYEE)) ∧
    ¬(role = Role.MANAGER ∧ Role.EXECUTIVE ∈ defaultAccessRoles role) := by
  cases role <;> exact ⟨by decide, by decide⟩

theorem defaults_assignable (user : User) :
    ¬(user.role = Role.EMPLOYEE ∧
      (defaultAccessRoles user.role).any (fun role => role ≠ Role.EMPLOYEE)) ∧
    ¬(user.role = Role.MANAGER ∧
      Role.EXECUTIVE ∈ defaultAccessRoles user.role) :=
  defaults_assignable_role user.role

/-- Claim C9: process_pdf validates the access-role assignment before any
write — an EMPLOYEE uploader supplying any non-EMPLOYEE role, or a
MANAGER supplying EXECUTIVE, gets a ValueError with the store completely
unchanged; an unsupplied access_roles list defaults to all three roles
for an EXECUTIVE, [MANAGER, EMPLOYEE] for a MANAGER and [EMPLOYEE] for an
EMPLOYEE, and the upload then succeeds with those roles on the
document. -/
theorem process_pdf_validation
    (splitFn : SplitterConfig → String → List String) (pages : List String)
    (doc_id : String) (now : Nat) (file_path : String) (user : User)
    (title : Option String) (st : Store) :
    (∀ l : List Role, l ≠ [] → user.role = Role.EMPLOYEE →
      (∃ r ∈ l, r ≠ Role.EMPLOYEE) →
      process_pdf splitFn pages doc_id now file_path user title (some l) st
        = (.error "Employees can only assign Employee-level access", st)) ∧
    (∀ l : List Role, l ≠ [] → user.role = Role.MANAGER → Role.EXECUTIVE ∈ l →
      process_pdf splitFn pages doc_id now file_path user title (some l) st
        = (.error "Managers cannot assign Executive-level access", st)) ∧
    (∀ u : User, effectiveAccessRoles u none = defaultAccessRoles u.role) ∧
    defaultAccessRoles Role.EXECUTIVE = [Role.EXECUTIVE, Role.MANAGER, Role.EMPLOYEE] ∧
    defaultAccessRoles Role.MANAGER = [Role.MANAGER, Role.EMPLOYEE] ∧
    defaultAccessRoles Role.EMPLOYEE = [Role.EMPLOYEE] ∧
    ∃ d : Document,
      (process_pdf splitFn pages doc_id now file_path user title none st).1 = .ok d ∧
      d.access_roles = defaultAccessRoles user.role := by
  refine ⟨?_, ?_, fun u => rfl, rfl, rfl, rfl, ?_⟩
  · intro l hl hrole hex
    rcases l with _ | ⟨r, rs⟩
    · exact absurd rfl hl
    · have hcond : user.role = Role.EMPLOYEE ∧
          (effectiveAccessRoles user (some (r :: rs))).any
            (fun role => role ≠ Role.EMPLOYEE) := by
        refine ⟨hrole, ?_⟩
        rcases hex with ⟨x, hx, hxne⟩
        exact List.any_eq_true.mpr ⟨x, hx, by simpa using hxne⟩
      simp only [process_pdf]
      rw [if_pos hcond]
  · intro l hl hrole hmem
    rcases l with _ | ⟨r, rs⟩
    · exact absurd rfl hl
    · have hcond1 : ¬(user.role = Role.EMPLOYEE ∧
          (effectiveAccessRoles user (some (r :: rs))).any
            (fun role => role ≠ Role.EMPLOYEE)) := by
        intro hcontra
        rw [hrole] at hcontra
        exact absurd hcontra.1 (by decide)
      have hcond2 : user.role = Role.MANAGER ∧
          Role.EXECUTIVE ∈ effectiveAccessRoles user (some (r :: rs)) :=
        ⟨hrole, hmem⟩
      simp only [process_pdf]
      rw [if_neg hcond1, if_pos hcond2]
  · obtain ⟨h1, h2⟩ := defaults_assignable user
    have e1 : effectiveAccessRoles user none = defaultAccessRoles user.role := rfl
    have h1' : ¬(user.role = Role.EMPLOYEE ∧
        (effectiveAccessRoles user none).any (fun role => role ≠ Role.EMPLOYEE)) := by
      rw [e1]; exact h1
    have h2' : ¬(user.role = Role.MANAGER ∧
        Role.EXECUTIVE ∈ effectiveAccessRoles user none) := by
      rw [e1]; exact h2
    rw [process_pdf_success splitFn pages doc_id now file_path user title none st h1' h2']
    exact ⟨_, rfl, rfl⟩

/-- Claim C5: the pipeline is sequential and runs in the stated order.
The ghost trace of a successful process_pdf extends the prior trace by
exactly split, metadata save, collection add, audit log — splitting
happens before storing, with no step repeated or interleaved.  The ghost
trace of generate_answer (LLM configured, nonempty retrieval) extends it
by exactly the two audit writes, then vector query, then filter, then
prompt construction, then the single LLM call. -/
theorem pipeline_sequential_order :
    (∀ (splitFn : SplitterConfig → String → List String) (pages : List String)
       (doc_id : String) (now : Nat) (file_path : String) (user : User)
       (title : Option String) (access_roles : Option (List Role)) (st : Store),
      ¬(user.role = Role.EMPLOYEE ∧
        (effectiveAccessRoles user access_roles).any (fun role => role ≠ Role.EMPLOYEE)) →
      ¬(user.role = Role.MANAGER ∧
        Role.EXECUTIVE ∈ effectiveAccessRoles user access_roles) →
      (process_pdf splitFn pages doc_id now file_path user title access_roles st).2.trace
        = st.trace ++ [Event.split, Event.saveMeta, Event.collectionAdd, Event.logWrite]) ∧
    (∀ (f : String → Except String String) (queryFn : String → Nat → List RawHit)
       (query : String) (user : User) (st : Store),
      (search_documents queryFn query user st).1 ≠ [] →
      (generate_answer (some f) queryFn query user st).2.trace
        = st.trace ++ [Event.logWrite, Event.logWrite, Event.vectorQuery,
                       Event.filterStep, Event.promptBuilt, Event.llmCall]) := by
  constructor
  · intro splitFn pages doc_id now file_path user title access_roles st h1 h2
    rw [process_pdf_success splitFn pages doc_id now file_path user title access_roles st h1 h2]
    simp [log_action, emit, collection_add, save_document_metadata, List.append_assoc]
  · intro f queryFn query user st hne
    have hkey : (search_documents queryFn query user
        (log_action user.username user.role "query" [("query", query)] st)).1
          ≠ [] := hne
    simp only [generate_answer]
    rw [if_neg hkey]
    cases hf : f (buildPrompt query
        (buildContext (search_documents queryFn query user
          (log_action user.username user.role "query" [("query", query)] st)).1)) <;>
      simp [hf, search_documents, log_action, emit, List.append_assoc]

/-! ## Association-list lemmas for the JSON file stores -/

theorem dictGet_dictSet {α : Type} :
    ∀ (m : List (String × α)) (k : String) (v : α),
      dictGet (dictSet m k v) k = some v
  | [], k, v => by simp [dictSet, dictGet]
  | p :: tl, k, v => by
    have ih := dictGet_dictSet tl k v
    by_cases hp : p.1 = k
    · have hc : (p :: tl).any (fun q => q.1 = k) = true := by
        simp [List.any_cons, hp]
      rw [dictSet, if_pos hc]
      simp only [List.map_cons]
      rw [if_pos hp]
      simp [dictGet]
    · by_cases htl : tl.any (fun q => q.1 = k) = true
      · have hc : (p :: tl).any (fun q => q.1 = k) = true := by
          simp [List.any_cons, htl]
        rw [dictSet, if_pos hc]
        simp only [List.map_cons]
        rw [if_neg hp]
        rw [dictGet, if_neg hp]
        rw [dictSet, if_pos htl] at ih
        exact ih
      · have hc : ¬ ((p :: tl).any (fun q => q.1 = k) = true) := by
          simp only [List.any_cons, Bool.or_eq_true, decide_eq_true_eq]
          rintro (h | h)
          · exact hp h
          · exact htl h
        rw [dictSet, if_neg hc]
        rw [List.cons_append, dictGet, if_neg hp]
        rw [dictSet, if_neg htl] at ih
        exact ih

theorem dictGet_filter_self {α : Type} (k : String) :
    ∀ m : List (String × α),
      dictGet (m.filter (fun p => !(p.1 == k))) k = none
  | [] => by simp [dictGet]
  | p :: tl => by
    have ih := dictGet_filter_self k tl
    by_cases hp : p.1 = k
    · rw [List.filter_cons]
      simp [hp, ih]
    · rw [List.filter_cons]
      rw [if_pos (by simp [hp])]
      rw [dictGet, if_neg hp]
      exact ih

/-! ## Claim theorems: persistence and authentication -/

/-- Claim C6: document metadata round-trips through the flat JSON file
store — reading back the id just saved yields an equal Document, and a
missing or unparseable metadata file reads as none. -/
theorem document_metadata_roundtrip :
    (∀ (d : Document) (st : Store),
      get_document_metadata d.id (save_document_metadata d st) = some d) ∧
    (∀ (doc_id : String) (st : Store),
      (dictGet st.docFiles doc_id = none ∨
       dictGet st.docFiles doc_id = some .corrupt) →
      get_document_metadata doc_id st = none) := by
  constructor
  · intro d st
    simp [get_document_metadata, save_document_metadata, emit, dictGet_dictSet]
  · intro doc_id st h
    rcases h with h | h <;> simp [get_document_metadata, h]

/-- Claim C4: authenticate_user returns none exactly when the username is
absent from the stored user map or the password fails verification;
otherwise it returns the stored user with last_login set to the current
time, and saves the updated map back to the users file. -/
theorem authenticate_user_spec
    (hash : String → String) (verify : String → String → Bool) (now : Nat)
    (username password : String) (st : Store) :
    ((authenticate_user hash verify now username password st).1 = none ↔
      (dictGet (get_users hash st).1 username = none ∨
       ∃ u, dictGet (get_users hash st).1 username = some u ∧
            verify password u.hashed_password = false)) ∧
    (∀ u, dictGet (get_users hash st).1 username = some u →
      verify password u.hashed_password = true →
      (authenticate_user hash verify now username password st).1
        = some { u with last_login := some now } ∧
      (authenticate_user hash verify now username password st).2.usersFile
        = some (.parsed (dictSet (get_users hash st).1 username
            { u with last_login := some now }))) := by
  constructor
  · cases hu : dictGet (get_users hash st).1 username with
    | none =>
      constructor
      · intro _
        exact Or.inl rfl
      · intro _
        simp only [authenticate_user]
        rw [hu]
    | some u =>
      cases hv : verify password u.hashed_password with
      | false =>
        constructor
        · intro _
          exact Or.inr ⟨u, rfl, hv⟩
        · intro _
          simp only [authenticate_user]
          rw [hu]
          simp [hv]
      | true =>
        constructor
        · intro hnone
          exfalso
          revert hnone
          simp only [authenticate_user]
          rw [hu]
          simp [hv]
        · rintro (h | ⟨u', hu', hv'⟩)
          · cases h
          · rcases Option.some.inj hu' with rfl
            rw [hv] at hv'
            cases hv'
  · intro u hu hv
    constructor
    · simp only [authenticate_user]
      rw [hu]
      simp [hv]
    · simp only [authenticate_user]
      rw [hu]
      simp [hv, log_action, emit, save_users]

/-! ## Claim theorem: delete_document -/

/-- The mutation of delete_document removes every chunk of the document
(exactly those, when chunk ids are unique) and the metadata file, and
touches nothing else. -/
theorem delete_document_mut_spec (doc_id : String) (st : Store) :
    (∀ e ∈ (delete_document_mut doc_id st).collection,
      e.metadata.document_id ≠ doc_id) ∧
    ((st.collection.map (fun e => e.id)).Nodup →
      (delete_document_mut doc_id st).collection
        = st.collection.filter (fun e => !(e.metadata.document_id == doc_id))) ∧
    (delete_document_mut doc_id st).docFiles
      = st.docFiles.filter (fun p => !(p.1 == doc_id)) ∧
    (delete_document_mut doc_id st).usersFile = st.usersFile := by
  set ids := (st.collection.filter
    (fun e => e.metadata.document_id == doc_id)).map (fun e => e.id) with hids
  by_cases hnil : ids = []
  · have hresnil : st.collection.filter
        (fun e => e.metadata.document_id == doc_id) = [] :=
      List.map_eq_nil_iff.mp (hids ▸ hnil)
    have hall := List.filter_eq_nil_iff.mp hresnil
    have hst1 : delete_document_mut doc_id st =
        { st with docFiles := st.docFiles.filter (fun p => !(p.1 == doc_id)) } := by
      simp only [delete_document_mut]
      rw [← hids, if_pos hnil]
    rw [hst1]
    refine ⟨?_, ?_, rfl, rfl⟩
    · intro e he hcontra
      have := hall e he
      simp [hcontra] at this
    · intro _
      symm
      rw [List.filter_eq_self]
      intro e he
      simpa using hall e he
  · have hst1 : delete_document_mut doc_id st =
        { st with
          collection := st.collection.filter (fun e => !(ids.contains e.id)),
          docFiles := st.docFiles.filter (fun p => !(p.1 == doc_id)) } := by
      simp only [delete_document_mut]
      rw [← hids, if_neg hnil]
    rw [hst1]
    refine ⟨?_, ?_, rfl, rfl⟩
    · intro e he hcontra
      rcases List.mem_filter.mp he with ⟨hmem, hkeep⟩
      have hin : e.id ∈ ids := by
        rw [hids]
        exact List.mem_map.mpr ⟨e, List.mem_filter.mpr ⟨hmem, by simp [hcontra]⟩, rfl⟩
      simp [hin] at hkeep
    · intro hnodup
      refine List.filter_congr ?_
      intro e he
      by_cases hdoc : e.metadata.document_id = doc_id
      · have hin : e.id ∈ ids := by
          rw [hids]
          exact List.mem_map.mpr ⟨e, List.mem_filter.mpr ⟨he, by simp [hdoc]⟩, rfl⟩
        simp [hin, hdoc]
      · have hnotin : e.id ∉ ids := by
          intro hin
          rw [hids] at hin
          rcases List.mem_map.mp hin with ⟨e', he', hid⟩
          rcases List.mem_filter.mp he' with ⟨hmem', hdoc'⟩
          have heq : e' = e := List.inj_on_of_nodup_map hnodup hmem' he hid
          rw [heq] at hdoc'
          simp [hdoc] at hdoc'
        simp [hnotin, hdoc]

/-- Claim C10: delete_document returns false and leaves the store
untouched when the metadata is missing, the requester is an EMPLOYEE, or
a MANAGER tries to delete an EXECUTIVE document; otherwise it returns
true, removes every chunk whose document_id matches (and, given the
unique chunk ids ChromaDB guarantees, exactly those), and removes the
metadata file. -/
theorem delete_document_spec (doc_id : String) (user : User) (st : Store) :
    (get_document_metadata doc_id st = none →
      delete_document doc_id user st = (false, st)) ∧
    (user.role = Role.EMPLOYEE →
      delete_document doc_id user st = (false, st)) ∧
    (∀ d, get_document_metadata doc_id st = some d →
      user.role = Role.MANAGER → Role.EXECUTIVE ∈ d.access_roles →
      delete_document doc_id user st = (false, st)) ∧
    (∀ d, get_document_metadata doc_id st = some d →
      user.role ≠ Role.EMPLOYEE →
      ¬(user.role = Role.MANAGER ∧ Role.EXECUTIVE ∈ d.access_roles) →
      (delete_document doc_id user st).1 = true ∧
      (∀ e ∈ (delete_document doc_id user st).2.collection,
        e.metadata.document_id ≠ doc_id) ∧
      ((st.collection.map (fun e => e.id)).Nodup →
        (delete_document doc_id user st).2.collection
          = st.collection.filter (fun e => !(e.metadata.document_id == doc_id))) ∧
      get_document_metadata doc_id (delete_document doc_id user st).2 = none) := by
  refine ⟨?_, ?_, ?_, ?_⟩
  · intro h
    simp only [delete_document]
    rw [h]
  · intro h
    cases hd : get_document_metadata doc_id st with
    | none =>
      simp only [delete_document]
      rw [hd]
    | some d =>
      simp only [delete_document]
      rw [hd]
      simp [h]
  · intro d hd hrole hmem
    simp only [delete_document]
    rw [hd]
    simp [hrole, hmem]
  · intro d hd h1 h2
    have hrw : ∀ (T : Type) (F : Bool × Store → T),
        F (delete_document doc_id user st) =
        F (true,
          log_action user.username user.role "delete_document"
            [("document_id", doc_id), ("title", d.title)]
            (delete_document_mut doc_id st)) := by
      intro T F
      simp only [delete_document]
      rw [hd]
      simp [h1, h2]
    obtain ⟨hcoll, hcolleq, hfiles, _⟩ := delete_document_mut_spec doc_id st
    refine ⟨?_, ?_, ?_, ?_⟩
    · rw [hrw Bool (fun p => p.1)]
    · rw [hrw (List CollectionEntry) (fun p => p.2.collection)]
      simpa [log_action, emit] using hcoll
    · intro hnodup
      rw [hrw (List CollectionEntry) (fun p => p.2.collection)]
      simpa [log_action, emit] using hcolleq hnodup
    · rw [hrw (Option Document) (fun p => get_document_metadata doc_id p.2)]
      simp only [log_action, emit, get_document_metadata]
      rw [show (delete_document_mut doc_id st).docFiles
          = st.docFiles.filter (fun p => !(p.1 == doc_id)) from hfiles]
      rw [dictGet_filter_self]

/-! ## Concrete data for witnessing the theorems on executable inputs -/

def userA : User :=
  { username := "alice", hashed_password := "h", role := Role.MANAGER,
    department := "HR" }

def userE : User :=
  { username := "eve", hashed_password := "h", role := Role.EMPLOYEE,
    department := "HR" }

def hitA : RawHit :=
  { id := "d1_0", document := "alpha",
    metadata := { document_id := "d1", title := "T1", chunk := 0,
                  access_roles := [Role.MANAGER, Role.EMPLOYEE],
                  department := "HR", uploaded_by := "bob" },
    distance := 0 }

def queryFnA : String → Nat → List RawHit := fun _ n => [hitA].take n

def stA : Store := {}

def splitA : SplitterConfig → String → List String := fun _ t => [t]

def fOkA : String → Except String String := fun _ => .ok "ANSWER"

def fErrA : String → Except String String := fun _ => .error "boom"

def hashA : String → String := fun s => s ++ "#"

def verifyA : String → String → Bool := fun p h => h == p ++ "#"

def userBob : User :=
  { username := "bob", hashed_password := "pw#", role := Role.EMPLOYEE,
    department := "Support" }

def stU : Store := { usersFile := some (.parsed [("bob", userBob)]) }

def docD : Document :=
  { id := "d1", title := "T1", content := "c", metadata := [],
    access_roles := [Role.MANAGER, Role.EMPLOYEE], uploaded_by := "alice" }

def entryD : CollectionEntry :=
  { id := "d1_0", document := "alpha",
    metadata := { document_id := "d1", title := "T1", chunk := 0,
                  access_roles := [Role.MANAGER, Role.EMPLOYEE],
                  department := "HR", uploaded_by := "alice" } }

def stD : Store := { collection := [entryD], docFiles := [("d1", .parsed docD)] }

/-! ## Witnesses -/

/-- Witness for C1 on a concrete user, store and query oracle. -/
theorem search_documents_access_policy_witness :
    resultPolicy userA (mkSearchResult hitA "d1") :=
  (search_documents_access_policy queryFnA "q" userA stA 5).1
    (mkSearchResult hitA "d1") (by decide)

/-- Witness for C8 on a concrete user, store and query oracle. -/
theorem search_documents_topk_distinct_witness :
    (search_documents queryFnA "q" userA stA 5).1.length ≤ 5 ∧
    ((search_documents queryFnA "q" userA stA 5).1.map
      (fun r => r.document_id)).Nodup :=
  search_documents_topk_distinct queryFnA "q" userA stA 5 (by decide)

/-- Witness for C2 on a concrete user, store, query and LLM oracle. -/
theorem generate_answer_grounded_witness :
    (generate_answer (some fOkA) queryFnA "q" userA stA).1 =
      { answer :=
          match fOkA (buildPrompt "q"
              (buildContext (search_documents queryFnA "q" userA stA).1)) with
          | .ok content => content
          | .error e =>
            "Sorry, I encountered an error while generating the answer: " ++ e,
        sources := sourcesOf (search_documents queryFnA "q" userA stA).1 } :=
  (generate_answer_grounded fOkA queryFnA "q" userA stA).2 (by decide)

/-- Witness for C7 on a concrete user, store, query and failing LLM. -/
theorem generate_answer_one_call_witness :
    ((generate_answer (some fErrA) queryFnA "q" userA stA).2.trace.drop
      stA.trace.length).count Event.llmCall ≤ 1 ∧
    (generate_answer (some fErrA) queryFnA "q" userA stA).2.collection
      = stA.collection ∧
    (generate_answer (some fErrA) queryFnA "q" userA stA).2.docFiles
      = stA.docFiles ∧
    (generate_answer (some fErrA) queryFnA "q" userA stA).2.usersFile
      = stA.usersFile ∧
    (generate_answer (some fErrA) queryFnA "q" userA stA).1 =
      { answer :=
          "Sorry, I encountered an error while generating the answer: " ++ "boom",
        sources := sourcesOf (search_documents queryFnA "q" userA stA).1 } := by
  have h := generate_answer_one_call_no_mutation (some fErrA) queryFnA "q" userA stA
  exact ⟨h.1, h.2.1, h.2.2.1, h.2.2.2.1, h.2.2.2.2 fErrA "boom" rfl rfl (by decide)⟩

/-- Witness for C3 on a concrete upload. -/
theorem process_pdf_chunking_witness :
    pdfChunks splitA ["p"] =
      splitA { chunk_size := 1000, chunk_overlap := 200 } (pdfText ["p"]) ∧
    ∃ newEntries : List CollectionEntry,
      (process_pdf splitA ["p"] "d1" 7 "f.pdf" userA (some "T") none stA).2.collection
        = stA.collection ++ newEntries ∧
      newEntries.map (fun e => e.document) = pdfChunks splitA ["p"] ∧
      newEntries.map (fun e => e.id) =
        (List.range (pdfChunks splitA ["p"]).length).map
          (fun i => "d1" ++ "_" ++ toString i) ∧
      ∀ e ∈ newEntries,
        e.metadata.access_roles = effectiveAccessRoles userA none ∧
        e.metadata.department = userA.department ∧
        e.metadata.uploaded_by = userA.username ∧
        e.metadata.document_id = "d1" :=
  process_pdf_chunking splitA ["p"] "d1" 7 "f.pdf" userA (some "T") none stA
    (by decide) (by decide)

/-- Witness for C9: a concrete forbidden assignment for an employee and
for a manager, and a concrete defaulted success. -/
theorem process_pdf_validation_witness :
    process_pdf splitA ["p"] "d1" 7 "f.pdf" userE (some "T")
        (some [Role.EXECUTIVE]) stA
      = (.error "Employees can only assign Employee-level access", stA) ∧
    process_pdf splitA ["p"] "d1" 7 "f.pdf" userA (some "T")
        (some [Role.EXECUTIVE]) stA
      = (.error "Managers cannot assign Executive-level access", stA) ∧
    ∃ d : Document,
      (process_pdf splitA ["p"] "d1" 7 "f.pdf" userA (some "T") none stA).1
        = .ok d ∧
      d.access_roles = defaultAccessRoles userA.role := by
  have hE := process_pdf_validation splitA ["p"] "d1" 7 "f.pdf" userE (some "T") stA
  have hM := process_pdf_validation splitA ["p"] "d1" 7 "f.pdf" userA (some "T") stA
  exact ⟨hE.1 [Role.EXECUTIVE] (by decide) rfl ⟨Role.EXECUTIVE, by decide, by decide⟩,
         hM.2.1 [Role.EXECUTIVE] (by decide) rfl (by decide),
         hM.2.2.2.2.2.2⟩

/-- Witness for C5 on a concrete upload and a concrete answered query. -/
theorem pipeline_sequential_order_witness :
    (process_pdf splitA ["p"] "d1" 7 "f.pdf" userA (some "T") none stA).2.trace
      = stA.trace ++ [Event.split, Event.saveMeta, Event.collectionAdd,
                      Event.logWrite] ∧
    (generate_answer (some fOkA) queryFnA "q" userA stA).2.trace
      = stA.trace ++ [Event.logWrite, Event.logWrite, Event.vectorQuery,
                      Event.filterStep, Event.promptBuilt, Event.llmCall] := by
  have h := pipeline_sequential_order
  exact ⟨h.1 splitA ["p"] "d1" 7 "f.pdf" userA (some "T") none stA
           (by decide) (by decide),
         h.2 fOkA queryFnA "q" userA stA (by decide)⟩

/-- Witness for C4 on a concrete user store and password oracle. -/
theorem authenticate_user_spec_witness :
    (authenticate_user hashA verifyA 9 "bob" "pw" stU).1
      = some { userBob with last_login := some 9 } ∧
    (authenticate_user hashA verifyA 9 "bob" "pw" stU).2.usersFile
      = some (.parsed (dictSet (get_users hashA stU).1 "bob"
          { userBob with last_login := some 9 })) :=
  (authenticate_user_spec hashA verifyA 9 "bob" "pw" stU).2 userBob
    (by decide) (by decide)

/-- Witness for C6 on a concrete document and a missing file. -/
theorem document_metadata_roundtrip_witness :
    get_document_metadata docD.id (save_document_metadata docD stA) = some docD ∧
    get_document_metadata "missing" stA = none :=
  ⟨document_metadata_roundtrip.1 docD stA,
   document_metadata_roundtrip.2 "missing" stA (Or.inl (by decide))⟩

/-- Witness for C10 on a concrete store with one document and one chunk. -/
theorem delete_document_spec_witness :
    (delete_document "d1" userA stD).1 = true ∧
    (∀ e ∈ (delete_document "d1" userA stD).2.collection,
      e.metadata.document_id ≠ "d1") ∧
    (delete_document "d1" userA stD).2.collection
      = stD.collection.filter (fun e => !(e.metadata.document_id == "d1")) ∧
    get_document_metadata "d1" (delete_document "d1" userA stD).2 = none := by
  have h := (delete_document_spec "d1" userA stD).2.2.2 docD
    (by decide) (by decide) (by decide)
  exact ⟨h.1, h.2.1, h.2.2.1 (by decide), h.2.2.2⟩

end RbacRag
